import Mathlib

/-!
# The `license put` command and the volumes watcher of nomad

A shallow embedding of `command/license_put.go` (the data-source resolution
`LoadDataSource`, its helpers `loadFromFile` and `loadFromStdin`, the argument
check `dataFromArgs` and the command body `Run`), followed by a model of the
volumes-watcher supervisor that `nomad/volumewatcher/volumes_watcher_test.go`
exercises.

Go strings are byte sequences, Go `(string, error)` results are kept as a pair
(the string and an optional error), and every access to the outside world (a file
read, one `Read` on a stream, a message on the UI, an RPC) is recorded in a trace.
-/

namespace command

/-! ## Strings, errors, readers -/

/-- A Go string: an immutable sequence of bytes. -/
abbrev GoString := List UInt8

/-- The bytes of a string literal of the Go source (Go source text is UTF-8). -/
def lit (s : String) : GoString := s.toUTF8.data.toList

/-- The byte of an ASCII character constant such as the sigils of `LoadDataSource`. -/
def byte (c : Char) : UInt8 := c.toNat.toUInt8

/-- A non-nil Go `error`, identified with the text its `Error()` method returns.
A nil error is `none` of `Option GoError`. -/
structure GoError where
  msg : GoString
deriving DecidableEq, Repr

/-- The error built by `fmt.Errorf(fmtText + "%v", err)`: the text followed by
`err.Error()`. -/
def Errorf (fmtText : GoString) (err : GoError) : GoError :=
  ⟨fmtText ++ err.msg⟩

/-- The decimal text `%d` prints for a length. -/
def fmtInt (n : Nat) : GoString := lit (Nat.repr n)

/-- The error a `Read` call can report: `io.EOF` or any other error. -/
inductive ReadErr where
  | eof
  | failure (e : GoError)
deriving DecidableEq, Repr

/-- The outcome of one `Read` call on an `io.Reader`: the bytes delivered and the
error reported with them (`none` is a nil error). -/
structure ReadStep where
  data : GoString
  err : Option ReadErr
deriving DecidableEq, Repr

/-- An `io.Reader`, given by the outcomes of its successive `Read` calls. Once
the list is used up every further `Read` delivers no bytes and reports `io.EOF`. -/
abbrev Reader := List ReadStep

/-- The two streams `loadFromStdin` can copy from. -/
inductive Stream where
  | testStdin
  | osStdin
deriving DecidableEq, Repr

/-- A message sent to the command's `Ui`. -/
inductive UiCall where
  | Output (msg : GoString)
  | Error (msg : GoString)
deriving DecidableEq, Repr

/-- The observable accesses to the outside world. -/
inductive Effect where
  | ReadFile (path : GoString)
  | Read (s : Stream)
  | Ui (c : UiCall)
  | LicensePut (payload : GoString)
deriving DecidableEq, Repr

/-- The outside world as `license_put.go` sees it: what `ioutil.ReadFile` returns
for each path, and the process standard input `os.Stdin`. -/
structure World where
  ReadFile : GoString → Except GoError GoString
  Stdin : Reader

/-- A Go `(string, error)` result together with the trace of the call. -/
structure Result where
  val : GoString
  err : Option GoError
  trace : List Effect
deriving DecidableEq, Repr

/-! ## `license_put.go` -/

/-- The loop of `io.Copy(&b, stdin)` into a `bytes.Buffer`: every `Read` appends its
bytes to the buffer; the copy ends at the first `Read` that reports an error, with
a nil error for `io.EOF` and with that error otherwise. Returns the buffer, the
error and the number of `Read` calls made. -/
def ioCopy : Reader → GoString → Nat → GoString × Option GoError × Nat
  | [], buf, n => (buf, none, n + 1)
  | step :: rest, buf, n =>
    match step.err with
    | none => ioCopy rest (buf ++ step.data) (n + 1)
    | some ReadErr.eof => (buf ++ step.data, none, n + 1)
    | some (ReadErr.failure e) => (buf ++ step.data, some e, n + 1)

/-- `loadFromFile(path)`. -/
def loadFromFile (w : World) (path : GoString) : Result :=
  match w.ReadFile path with
  | Except.error err =>
    ⟨[], some (Errorf (lit "Failed to read file: ") err), [Effect.ReadFile path]⟩
  | Except.ok data => ⟨data, none, [Effect.ReadFile path]⟩

/-- The reader `loadFromStdin` copies from: `os.Stdin`, replaced by `testStdin`
when that is not nil. -/
def selectStdin (w : World) (testStdin : Option Reader) : Stream × Reader :=
  match testStdin with
  | some r => (Stream.testStdin, r)
  | none => (Stream.osStdin, w.Stdin)

/-- `loadFromStdin(testStdin)`. -/
def loadFromStdin (w : World) (testStdin : Option Reader) : Result :=
  let stdin := selectStdin w testStdin
  match ioCopy stdin.2 [] 0 with
  | (_, some err, n) =>
    ⟨[], some (Errorf (lit "Failed to read stdin: ") err),
      List.replicate n (Effect.Read stdin.1)⟩
  | (b, none, n) => ⟨b, none, List.replicate n (Effect.Read stdin.1)⟩

/-- `LoadDataSource(data, testStdin)`. -/
def LoadDataSource (w : World) (data : GoString) (testStdin : Option Reader) : Result :=
  match data with
  | [] => ⟨[], none, []⟩
  | c :: rest =>
    if c = byte '@' then loadFromFile w rest
    else if c = byte '-' then
      if data.length > 1 then ⟨data, none, []⟩
      else loadFromStdin w testStdin
    else ⟨data, none, []⟩

/-- `(c *LicensePutCommand) dataFromArgs(args)`, with `c.testStdin` passed as
`testStdin`. -/
def dataFromArgs (w : World) (testStdin : Option Reader) (args : List GoString) : Result :=
  match args with
  | [] => ⟨[], some ⟨lit "Missing LICENSE argument"⟩, []⟩
  | [a] => LoadDataSource w a testStdin
  | _ => ⟨[], some ⟨lit "Too many arguments, exptected 1, got " ++ fmtInt args.length⟩, []⟩

/-- What `flags.Parse(args)` did: whether it called `flags.Usage`, and either the
error it returned or the positional arguments left over (`flags.Args()`). -/
structure ParseOutcome where
  usage : Bool
  res : Except GoError (List GoString)

/-- The parts of package `command` that `Run` uses and `license_put.go` does not
define, taken as parameters: the text of `generalOptionsUsage()`, the flag set
built by `Meta.FlagSet`, the API client of `Meta.Client()` (reduced to its
`Operator().LicensePut` call) and `OutputLicenseReply`, which writes to the UI and
returns an exit code. -/
structure Meta (Reply : Type) where
  generalOptionsUsage : GoString
  Parse : List GoString → ParseOutcome
  Client : Except GoError (GoString → Except GoError Reply)
  OutputLicenseReply : Reply → List UiCall × Int

/-- `LicensePutCommand`. -/
structure LicensePutCommand (Reply : Type) where
  Meta : Meta Reply
  testStdin : Option Reader

/-- `(c *LicensePutCommand) Help()`. -/
def Help {Reply : Type} (c : LicensePutCommand Reply) : GoString :=
  lit "\nUsage: nomad license put [options]\n\nPuts a new license in Servers and Clients\n\nGeneral Options:\n\n  "
    ++ c.Meta.generalOptionsUsage
    ++ lit "\n\nInstall a new license from a file:\n\n\t$ nomad license put @nomad.license\n\nInstall a new license from stdin:\n\n\t$ nomad license put -\n\nInstall a new license from a string:\n\n\t$ nomad license put \"<license blob>\"\n\t"

/-- `errors.Wrap(err, message)` of `github.com/pkg/errors`: its `Error()` is the
message, a colon and a space, then the text of the wrapped error. -/
def errorsWrap (err : GoError) (message : GoString) : GoError :=
  ⟨message ++ lit ": " ++ err.msg⟩

/-- The exit code of `Run` and the trace of the call. -/
structure RunResult where
  code : Int
  trace : List Effect
deriving DecidableEq, Repr

/-- `(c *LicensePutCommand) Run(args)`. -/
def Run {Reply : Type} (c : LicensePutCommand Reply) (w : World) (args : List GoString) :
    RunResult :=
  let p := c.Meta.Parse args
  let t0 := if p.usage then [Effect.Ui (UiCall.Output (Help c))] else []
  match p.res with
  | Except.error err =>
    ⟨1, t0 ++ [Effect.Ui (UiCall.Error (lit "Error parsing flags: " ++ err.msg))]⟩
  | Except.ok args =>
    let d := dataFromArgs w c.testStdin args
    match d.err with
    | some err =>
      ⟨1, t0 ++ d.trace ++
        [Effect.Ui (UiCall.Error (errorsWrap err (lit "Error parsing arguments")).msg)]⟩
    | none =>
      match c.Meta.Client with
      | Except.error err =>
        ⟨1, t0 ++ d.trace ++
          [Effect.Ui (UiCall.Error (lit "Error initializing client: " ++ err.msg))]⟩
      | Except.ok client =>
        match client d.val with
        | Except.error err =>
          ⟨1, t0 ++ d.trace ++ [Effect.LicensePut d.val,
            Effect.Ui (UiCall.Error (lit "Error putting license: " ++ err.msg))]⟩
        | Except.ok resp =>
          let out := c.Meta.OutputLicenseReply resp
          ⟨out.2, t0 ++ d.trace ++ [Effect.LicensePut d.val] ++ out.1.map Effect.Ui⟩

/-! ## What a stream holds

The content of a stream, stated without reference to the copy loop. -/

/-- The position of the first `Read` that reports an error, `io.EOF` included; the
number of listed reads when none does. -/
def streamEnd (r : Reader) : Nat := r.findIdx (fun s => s.err.isSome)

/-- The entire content of a stream: the bytes of every `Read` up to and including
the one that ends it. -/
def streamContent (r : Reader) : GoString :=
  ((r.take (streamEnd r + 1)).map ReadStep.data).flatten

/-- The error, other than `io.EOF`, that ends the stream, if there is one. -/
def streamFailure (r : Reader) : Option GoError :=
  match r.get? (streamEnd r) with
  | some ⟨_, some (ReadErr.failure e)⟩ => some e
  | _ => none

/-- The `LicensePut` calls of a trace, in order, by payload. -/
def rpcCalls : List Effect → List GoString
  | [] => []
  | Effect.LicensePut p :: t => p :: rpcCalls t
  | _ :: t => rpcCalls t

/-- The messages a trace sends to `Ui.Error`, in order. -/
def uiErrors : List Effect → List GoString
  | [] => []
  | Effect.Ui (UiCall.Error m) :: t => m :: uiErrors t
  | _ :: t => uiErrors t

/-- A world with one readable file, `nomad.license`, and a process standard input
that delivers `abc`, then `def` together with `io.EOF`. -/
def sampleWorld : World where
  ReadFile := fun path =>
    if path = lit "nomad.license" then Except.ok (lit "blob")
    else Except.error ⟨lit "open: no such file or directory"⟩
  Stdin := [⟨lit "abc", none⟩, ⟨lit "def", some ReadErr.eof⟩]

/-- A reader that delivers `li` and then fails with `broken pipe`. -/
def brokenReader : Reader :=
  [⟨lit "li", none⟩, ⟨[], some (ReadErr.failure ⟨lit "broken pipe"⟩)⟩]

/-- A command whose flag set rejects `-bogus` (after a call of `flags.Usage`) and
passes every other argument list through, whose client accepts the payload `blob`
only, and whose reply is printed with exit code 0. The stdin of the command
delivers `blob` and then `io.EOF`. -/
def sampleCommand : LicensePutCommand GoString where
  Meta :=
    { generalOptionsUsage := lit "-address=<addr>"
      Parse := fun args =>
        if args = [lit "-bogus"] then
          ⟨true, Except.error ⟨lit "flag provided but not defined: -bogus"⟩⟩
        else ⟨false, Except.ok args⟩
      Client := Except.ok (fun payload =>
        if payload = lit "blob" then Except.ok (lit "installed")
        else Except.error ⟨lit "rejected"⟩)
      OutputLicenseReply := fun resp => ([UiCall.Output resp], 0) }
  testStdin := some [⟨lit "blob", some ReadErr.eof⟩]

/-- The same command with a client that cannot be initialised. -/
def offlineCommand : LicensePutCommand GoString where
  Meta := { sampleCommand.Meta with Client := Except.error ⟨lit "invalid address"⟩ }
  testStdin := sampleCommand.testStdin

end command

/-! ## The volumes watcher (supervisor)

`volumes_watcher_test.go` drives `NewVolumesWatcher`, `SetEnabled`, `Reap` and the
state store's `CSIVolumeRegister`; their code is not among the sources, so this
section models them from the specification (sections 3, 4.1 and 8). -/

namespace volumewatcher

open command (GoString GoError lit)

/-- Modelled from the spec: the volume record of the data model (`structs.CSIVolume`
is missing from the sources), with its identity `(ID, Namespace)` and its read,
write and past claims, each named by the allocation that holds it. -/
structure CSIVolume where
  ID : GoString
  Namespace : GoString
  ReadAllocs : List GoString
  WriteAllocs : List GoString
  PastClaims : List GoString
deriving DecidableEq, Repr

/-- Modelled from the spec: whether a volume has at least one claim, active or
past (the missing discovery policy asks this of every volume). -/
def CSIVolume.hasClaims (v : CSIVolume) : Bool :=
  !(v.ReadAllocs.isEmpty && v.WriteAllocs.isEmpty && v.PastClaims.isEmpty)

/-- Modelled from the spec: the key of a volume in the watcher set,
`VolumeID+Namespace` (the missing supervisor keys its map so; the test reads
`watcher.watchers[vol.ID+vol.Namespace]`). -/
def CSIVolume.key (v : CSIVolume) : GoString := v.ID ++ v.Namespace

/-- Modelled from the spec: the watcher handle of one volume (the missing
`volumeWatcher`): the volume snapshot it holds and whether it still runs, which
ends when cancellation is signalled to it. -/
structure volumeWatcher where
  v : CSIVolume
  running : Bool
deriving DecidableEq, Repr

/-- Modelled from the spec: the supervisor (the missing `Watcher` that
`NewVolumesWatcher` builds): the enabled flag, the watcher set keyed by
`VolumeID+Namespace`, and the handles cancellation was signalled to. -/
structure Watcher where
  enabled : Bool
  watchers : List (GoString × volumeWatcher)
  cancelled : List volumeWatcher
deriving DecidableEq, Repr

/-- Modelled from the spec: the state store (missing), as the list of its volumes. -/
abbrev StateStore := List CSIVolume

/-- The supervisor together with the state store it reads. -/
structure Server where
  state : StateStore
  watcher : Watcher
deriving DecidableEq, Repr

/-- Modelled from the spec: the missing `NewVolumesWatcher` over an empty test
store; a new supervisor is disabled and watches nothing. -/
def NewVolumesWatcher : Server := ⟨[], ⟨false, [], []⟩⟩

/-- Modelled from the spec: the missing `CSIVolumeRegister` of the state store; the
volume replaces any record with the same ID and namespace. -/
def CSIVolumeRegister (srv : Server) (vol : CSIVolume) : Server :=
  { srv with
    state := vol :: srv.state.filter
      (fun o => !(o.ID == vol.ID && o.Namespace == vol.Namespace)) }

/-- Modelled from the spec: the missing `SetEnabled(enabled, state)`. Enabling an
enabled supervisor is a no-op and enabling a disabled one sets the flag, the
discovery passes being asynchronous (`discover` below). Disabling signals
cancellation to every active per-volume watcher and clears the watcher set before
it returns. -/
def SetEnabled (srv : Server) (enabled : Bool) : Server :=
  if enabled then
    if srv.watcher.enabled then srv
    else { srv with watcher := { srv.watcher with enabled := true } }
  else
    { srv with
      watcher :=
        { enabled := false
          watchers := []
          cancelled := srv.watcher.cancelled ++
            srv.watcher.watchers.map (fun kw => { kw.2 with running := false }) } }

/-- Modelled from the spec: the watcher set after making sure that the volume has a
watcher under its key, one being started when there is none. -/
def ensureWatcher (ws : List (GoString × volumeWatcher)) (vol : CSIVolume) :
    List (GoString × volumeWatcher) :=
  if ws.any (fun kw => kw.1 == vol.key) then ws else ws ++ [(vol.key, ⟨vol, true⟩)]

/-- Modelled from the spec: one pass of the missing discovery scan, which runs
asynchronously while the supervisor is enabled. Watchers whose volume has no claim
left in the store are stopped and removed, and every volume of the store with at
least one claim gets a watcher if it has none. -/
def discover (srv : Server) : Server :=
  if srv.watcher.enabled then
    let live := srv.state.filter CSIVolume.hasClaims
    let kept := srv.watcher.watchers.filter
      (fun kw => live.any (fun v => v.key == kw.1))
    let dropped := srv.watcher.watchers.filter
      (fun kw => !live.any (fun v => v.key == kw.1))
    { srv with
      watcher :=
        { enabled := true
          watchers := live.foldl ensureWatcher kept
          cancelled := srv.watcher.cancelled ++
            dropped.map (fun kw => { kw.2 with running := false }) } }
  else srv

/-- Modelled from the spec: the missing `Reap(claimRequest)`. It makes sure a
watcher exists for the volume the request names, starting one if necessary, and
forces a reconciliation pass whose outcome `pass` it returns. The spec does not say
what happens for a volume the store does not hold; here that is an error and the
watcher set stays as it is. -/
def Reap (srv : Server) (ns id : GoString) (pass : Option GoError) :
    Server × Option GoError :=
  match srv.state.find? (fun v => v.ID == id && v.Namespace == ns) with
  | none => (srv, some ⟨lit "volume not found"⟩)
  | some vol =>
    ({ srv with
       watcher := { srv.watcher with watchers := ensureWatcher srv.watcher.watchers vol } },
     pass)

/-- The calls that change the supervisor or its store. -/
inductive Op where
  | SetEnabled (enabled : Bool)
  | CSIVolumeRegister (vol : CSIVolume)
  | discover
  | Reap (ns id : GoString) (pass : Option GoError)
deriving DecidableEq, Repr

/-- One call. -/
def step (srv : Server) : Op → Server
  | Op.SetEnabled e => SetEnabled srv e
  | Op.CSIVolumeRegister vol => CSIVolumeRegister srv vol
  | Op.discover => discover srv
  | Op.Reap ns id pass => (Reap srv ns id pass).1

/-- A sequence of calls on a new supervisor. -/
def run (ops : List Op) : Server := ops.foldl step NewVolumesWatcher

/-- A volume whose one allocation holds a read claim and a write claim. -/
def testVolume : CSIVolume :=
  ⟨lit "vol0", lit "default", [lit "alloc0"], [lit "alloc0"], []⟩

/-- The calls of `TestVolumeWatch_EnableDisable` up to its `Reap`. -/
def enableDisableOps : List Op :=
  [Op.SetEnabled true, Op.CSIVolumeRegister testVolume,
    Op.Reap testVolume.Namespace testVolume.ID none]

end volumewatcher

namespace command

/-! ## Lemmas -/

theorem byte_dash_ne_at : byte '-' ≠ byte '@' := by decide

theorem lit_dash : lit "-" = [byte '-'] := by decide

theorem ioCopy_eq (r : Reader) (buf : GoString) (n : Nat) :
    ioCopy r buf n = (buf ++ streamContent r, streamFailure r, n + streamEnd r + 1) := by
  induction r generalizing buf n with
  | nil => simp [ioCopy, streamContent, streamFailure, streamEnd]
  | cons step rest ih =>
    rcases step with ⟨d, e⟩
    cases e with
    | none =>
      have hEnd : streamEnd (⟨d, none⟩ :: rest) = streamEnd rest + 1 := by
        simp [streamEnd, List.findIdx_cons]
      have hC : streamContent (⟨d, none⟩ :: rest) = d ++ streamContent rest := by
        simp [streamContent, hEnd]
      have hF : streamFailure (⟨d, none⟩ :: rest) = streamFailure rest := by
        simp [streamFailure, hEnd]
      rw [ioCopy, ih, hEnd, hC, hF]
      simp [Nat.add_assoc, Nat.add_comm, Nat.add_left_comm]
    | some x =>
      have hEnd : streamEnd (⟨d, some x⟩ :: rest) = 0 := by
        simp [streamEnd, List.findIdx_cons]
      cases x <;> simp [ioCopy, streamContent, streamFailure, hEnd]

theorem loadFromStdin_eq (w : World) (t : Option Reader) :
    loadFromStdin w t =
      match streamFailure (selectStdin w t).2 with
      | some err => ⟨[], some (Errorf (lit "Failed to read stdin: ") err),
          List.replicate (streamEnd (selectStdin w t).2 + 1) (Effect.Read (selectStdin w t).1)⟩
      | none => ⟨streamContent (selectStdin w t).2, none,
          List.replicate (streamEnd (selectStdin w t).2 + 1) (Effect.Read (selectStdin w t).1)⟩ := by
  unfold loadFromStdin
  simp only [ioCopy_eq]
  cases streamFailure (selectStdin w t).2 <;> simp

/-! ## `LoadDataSource` -/

/-- C1: a string of at least two bytes that starts with `-` is returned as it is,
with a nil error, whatever the stdin reader and the file system are, and without
any read of a file or of a stream (the trace is empty). -/
theorem LoadDataSource_dash_literal (w : World) (data : GoString)
    (testStdin : Option Reader) (hlen : 2 ≤ data.length)
    (hfirst : data.head? = some (byte '-')) :
    LoadDataSource w data testStdin = ⟨data, none, []⟩ := by
  cases data with
  | nil => simp at hlen
  | cons c rest =>
    simp only [List.head?_cons, Option.some.injEq] at hfirst
    subst hfirst
    have h1 : (byte '-' :: rest).length > 1 := hlen
    simp only [LoadDataSource, byte_dash_ne_at, h1, if_true, if_false]

theorem LoadDataSource_dash_literal_witness :
    2 ≤ (lit "-x").length ∧ (lit "-x").head? = some (byte '-') ∧
      LoadDataSource sampleWorld (lit "-x") (some brokenReader) = ⟨lit "-x", none, []⟩ :=
  ⟨by decide, by decide,
    LoadDataSource_dash_literal sampleWorld (lit "-x") (some brokenReader)
      (by decide) (by decide)⟩

/-- C2: a string that is empty, or whose first byte is neither `@` nor `-`, is
returned unchanged with a nil error, whatever the stdin reader and the file system
are (and nothing is read). -/
theorem LoadDataSource_verbatim (w : World) (data : GoString)
    (testStdin : Option Reader)
    (h : data = [] ∨ (data.head? ≠ some (byte '@') ∧ data.head? ≠ some (byte '-'))) :
    LoadDataSource w data testStdin = ⟨data, none, []⟩ := by
  cases data with
  | nil => simp [LoadDataSource]
  | cons c rest =>
    rcases h with h | ⟨h1, h2⟩
    · simp at h
    · simp only [List.head?_cons, ne_eq, Option.some.injEq] at h1 h2
      simp [LoadDataSource, h1, h2]

theorem LoadDataSource_verbatim_witness :
    ((lit "blob" = [] ∨ ((lit "blob").head? ≠ some (byte '@') ∧
        (lit "blob").head? ≠ some (byte '-'))) ∧
      LoadDataSource sampleWorld (lit "blob") none = ⟨lit "blob", none, []⟩) ∧
    LoadDataSource sampleWorld [] (some brokenReader) = ⟨[], none, []⟩ :=
  ⟨⟨Or.inr (by decide),
      LoadDataSource_verbatim sampleWorld (lit "blob") none (Or.inr (by decide))⟩,
    LoadDataSource_verbatim sampleWorld [] (some brokenReader) (Or.inl rfl)⟩

/-- C3: for the input `@` followed by `f`, exactly one file is read, at the path
`f` (the input without its first byte), and no stream. When the read succeeds with
contents `b` the result is `b` with a nil error; when it fails with `e` the result
is the empty string and the error `Failed to read file: ` followed by the text of
`e`. The result is the same for every stdin reader. -/
theorem LoadDataSource_at_file (w : World) (f : GoString) (testStdin : Option Reader) :
    (LoadDataSource w (byte '@' :: f) testStdin).trace = [Effect.ReadFile f] ∧
    (∀ b, w.ReadFile f = Except.ok b →
      (LoadDataSource w (byte '@' :: f) testStdin).val = b ∧
      (LoadDataSource w (byte '@' :: f) testStdin).err = none) ∧
    (∀ e, w.ReadFile f = Except.error e →
      (LoadDataSource w (byte '@' :: f) testStdin).val = [] ∧
      (LoadDataSource w (byte '@' :: f) testStdin).err
        = some ⟨lit "Failed to read file: " ++ e.msg⟩ ∧
      lit "Failed to read file: " <+: (lit "Failed to read file: " ++ e.msg)) ∧
    (∀ other : Option Reader,
      LoadDataSource w (byte '@' :: f) other = LoadDataSource w (byte '@' :: f) testStdin) := by
  have hL : ∀ t : Option Reader, LoadDataSource w (byte '@' :: f) t = loadFromFile w f := by
    intro t
    simp [LoadDataSource]
  simp only [hL]
  refine ⟨?_, ?_, ?_, ?_⟩
  · unfold loadFromFile
    cases w.ReadFile f <;> rfl
  · intro b hb
    simp [loadFromFile, hb]
  · intro e he
    simp [loadFromFile, he, Errorf]
  · intro _
    trivial

theorem LoadDataSource_at_file_witness :
    (sampleWorld.ReadFile (lit "nomad.license") = Except.ok (lit "blob") ∧
      (LoadDataSource sampleWorld (byte '@' :: lit "nomad.license") none).val = lit "blob" ∧
      (LoadDataSource sampleWorld (byte '@' :: lit "nomad.license") none).err = none) ∧
    (sampleWorld.ReadFile (lit " x") = Except.error ⟨lit "open: no such file or directory"⟩ ∧
      (LoadDataSource sampleWorld (byte '@' :: lit " x") none).val = [] ∧
      (LoadDataSource sampleWorld (byte '@' :: lit " x") none).err
        = some ⟨lit "Failed to read file: " ++ lit "open: no such file or directory"⟩) :=
  ⟨⟨by rfl,
    (LoadDataSource_at_file sampleWorld (lit "nomad.license") none).2.1 (lit "blob")
      (by rfl)⟩,
   ⟨by rfl,
    ((LoadDataSource_at_file sampleWorld (lit " x") none).2.2.1
      ⟨lit "open: no such file or directory"⟩ (by rfl)).1,
    ((LoadDataSource_at_file sampleWorld (lit " x") none).2.2.1
      ⟨lit "open: no such file or directory"⟩ (by rfl)).2.1⟩⟩

/-- C4: for the input `-` alone the stream is read to completion, one `Read` after
another up to the one that ends it, and the stream is `testStdin` when that is
given and the process standard input only when it is nil. When no `Read` fails the
result is the entire content of the stream with a nil error; when one fails with
`e` the result is the empty string and the error `Failed to read stdin: ` followed
by the text of `e`. -/
theorem LoadDataSource_lone_dash (w : World) (testStdin : Option Reader) (r : Reader)
    (s : Stream)
    (hsel : (testStdin = some r ∧ s = Stream.testStdin) ∨
      (testStdin = none ∧ r = w.Stdin ∧ s = Stream.osStdin)) :
    (LoadDataSource w (lit "-") testStdin).trace
      = List.replicate (streamEnd r + 1) (Effect.Read s) ∧
    (streamFailure r = none →
      (LoadDataSource w (lit "-") testStdin).val = streamContent r ∧
      (LoadDataSource w (lit "-") testStdin).err = none) ∧
    (∀ e, streamFailure r = some e →
      (LoadDataSource w (lit "-") testStdin).val = [] ∧
      (LoadDataSource w (lit "-") testStdin).err
        = some ⟨lit "Failed to read stdin: " ++ e.msg⟩ ∧
      lit "Failed to read stdin: " <+: (lit "Failed to read stdin: " ++ e.msg)) := by
  have hL : LoadDataSource w (lit "-") testStdin = loadFromStdin w testStdin := by
    rw [lit_dash]
    simp [LoadDataSource, byte_dash_ne_at]
  have hS : selectStdin w testStdin = (s, r) := by
    rcases hsel with ⟨h1, h2⟩ | ⟨h1, h2, h3⟩
    · subst h1 h2; rfl
    · subst h1 h2 h3; rfl
  rw [hL, loadFromStdin_eq, hS]
  refine ⟨?_, ?_, ?_⟩
  · cases streamFailure r <;> rfl
  · intro h
    simp [h]
  · intro e h
    simp [h, Errorf]

theorem LoadDataSource_lone_dash_witness :
    (streamFailure sampleWorld.Stdin = none ∧
      (LoadDataSource sampleWorld (lit "-") none).val = lit "abcdef" ∧
      (LoadDataSource sampleWorld (lit "-") none).err = none) ∧
    (streamFailure brokenReader = some ⟨lit "broken pipe"⟩ ∧
      (LoadDataSource sampleWorld (lit "-") (some brokenReader)).val = [] ∧
      (LoadDataSource sampleWorld (lit "-") (some brokenReader)).err
        = some ⟨lit "Failed to read stdin: " ++ lit "broken pipe"⟩) :=
  ⟨⟨by decide,
    (LoadDataSource_lone_dash sampleWorld none sampleWorld.Stdin Stream.osStdin
      (Or.inr ⟨rfl, rfl, rfl⟩)).2.1 (by decide)⟩,
   ⟨by decide,
    ((LoadDataSource_lone_dash sampleWorld (some brokenReader) brokenReader Stream.testStdin
      (Or.inl ⟨rfl, rfl⟩)).2.2 ⟨lit "broken pipe"⟩ (by decide)).1,
    ((LoadDataSource_lone_dash sampleWorld (some brokenReader) brokenReader Stream.testStdin
      (Or.inl ⟨rfl, rfl⟩)).2.2 ⟨lit "broken pipe"⟩ (by decide)).2.1⟩⟩

/-- C10: when `LoadDataSource` returns a non-nil error the returned string is
empty, and either the input starts with `@` and the read of the file named by the
rest of it failed, or the input is exactly `-` and the copy of the selected stream
failed. -/
theorem LoadDataSource_error_origin (w : World) (data : GoString)
    (testStdin : Option Reader) (h : (LoadDataSource w data testStdin).err ≠ none) :
    (LoadDataSource w data testStdin).val = [] ∧
    ((∃ f e, data = byte '@' :: f ∧ w.ReadFile f = Except.error e) ∨
      (data = lit "-" ∧ ∃ e, streamFailure (testStdin.getD w.Stdin) = some e)) := by
  cases data with
  | nil => simp [LoadDataSource] at h
  | cons c rest =>
    by_cases hAt : c = byte '@'
    · subst hAt
      have hL : LoadDataSource w (byte '@' :: rest) testStdin = loadFromFile w rest := by
        simp [LoadDataSource]
      rw [hL] at h ⊢
      unfold loadFromFile at h ⊢
      cases hr : w.ReadFile rest with
      | error e =>
        refine ⟨by simp, Or.inl ⟨rest, e, rfl, hr⟩⟩
      | ok b => simp [hr] at h
    · by_cases hDash : c = byte '-'
      · subst hDash
        cases rest with
        | nil =>
          have hL : LoadDataSource w [byte '-'] testStdin = loadFromStdin w testStdin := by
            simp [LoadDataSource, byte_dash_ne_at]
          have hG : (selectStdin w testStdin).2 = testStdin.getD w.Stdin := by
            cases testStdin <;> rfl
          rw [hL, loadFromStdin_eq, hG] at h ⊢
          cases hf : streamFailure (testStdin.getD w.Stdin) with
          | none => simp [hf] at h
          | some e =>
            refine ⟨by simp, Or.inr ⟨lit_dash.symm, e, rfl⟩⟩
        | cons d rest2 =>
          simp [LoadDataSource, byte_dash_ne_at] at h
      · simp [LoadDataSource, hAt, hDash] at h

theorem LoadDataSource_error_origin_witness :
    (LoadDataSource sampleWorld (byte '@' :: lit " x") none).err ≠ none ∧
    (LoadDataSource sampleWorld (byte '@' :: lit " x") none).val = [] :=
  ⟨by decide,
    (LoadDataSource_error_origin sampleWorld (byte '@' :: lit " x") none (by decide)).1⟩

/-! ## `dataFromArgs` -/

/-- C9: `dataFromArgs` accepts exactly one positional argument. With no argument
it returns the empty string and the error `Missing LICENSE argument`; with `n`
arguments, `n` at least 2, the empty string and the error
`Too many arguments, exptected 1, got n`; in both cases nothing is read (the trace
is empty). With one argument `a` its result is that of `LoadDataSource` on `a` and
the command's `testStdin`. -/
theorem dataFromArgs_arity (w : World) (testStdin : Option Reader) :
    dataFromArgs w testStdin [] = ⟨[], some ⟨lit "Missing LICENSE argument"⟩, []⟩ ∧
    (∀ args : List GoString, 2 ≤ args.length →
      dataFromArgs w testStdin args
        = ⟨[], some ⟨lit "Too many arguments, exptected 1, got " ++ fmtInt args.length⟩, []⟩) ∧
    (∀ a : GoString, dataFromArgs w testStdin [a] = LoadDataSource w a testStdin) := by
  refine ⟨rfl, ?_, fun _ => rfl⟩
  intro args h
  match args, h with
  | _ :: _ :: _, _ => rfl

theorem dataFromArgs_arity_witness :
    2 ≤ [lit "a", lit "-"].length ∧
    dataFromArgs sampleWorld (some brokenReader) [lit "a", lit "-"]
      = ⟨[], some ⟨lit "Too many arguments, exptected 1, got 2"⟩, []⟩ :=
  ⟨by decide,
    ((dataFromArgs_arity sampleWorld (some brokenReader)).2.1 [lit "a", lit "-"]
      (by decide)).trans (by decide)⟩

/-! ## `Run` -/

theorem rpcCalls_append (a b : List Effect) : rpcCalls (a ++ b) = rpcCalls a ++ rpcCalls b := by
  induction a with
  | nil => rfl
  | cons x t ih => cases x <;> simp [rpcCalls, ih]

theorem uiErrors_append (a b : List Effect) : uiErrors (a ++ b) = uiErrors a ++ uiErrors b := by
  induction a with
  | nil => rfl
  | cons x t ih =>
    cases x with
    | Ui c => cases c <;> simp [uiErrors, ih]
    | _ => simp [uiErrors, ih]

theorem rpcCalls_replicate_Read (n : Nat) (s : Stream) :
    rpcCalls (List.replicate n (Effect.Read s)) = [] := by
  induction n with
  | zero => rfl
  | succ k ih => simpa [List.replicate_succ, rpcCalls] using ih

theorem uiErrors_replicate_Read (n : Nat) (s : Stream) :
    uiErrors (List.replicate n (Effect.Read s)) = [] := by
  induction n with
  | zero => rfl
  | succ k ih => simpa [List.replicate_succ, uiErrors] using ih

/-- The trace of `LoadDataSource` holds file and stream reads only. -/
theorem LoadDataSource_trace_reads (w : World) (data : GoString) (t : Option Reader) :
    rpcCalls (LoadDataSource w data t).trace = [] ∧
      uiErrors (LoadDataSource w data t).trace = [] := by
  cases data with
  | nil => exact ⟨rfl, rfl⟩
  | cons c rest =>
    by_cases hAt : c = byte '@'
    · subst hAt
      have hL : LoadDataSource w (byte '@' :: rest) t = loadFromFile w rest := by
        simp [LoadDataSource]
      rw [hL]
      unfold loadFromFile
      cases w.ReadFile rest <;> exact ⟨rfl, rfl⟩
    · by_cases hDash : c = byte '-'
      · subst hDash
        cases rest with
        | nil =>
          have hL : LoadDataSource w [byte '-'] t = loadFromStdin w t := by
            simp [LoadDataSource, byte_dash_ne_at]
          rw [hL, loadFromStdin_eq]
          cases streamFailure (selectStdin w t).2 <;>
            exact ⟨rpcCalls_replicate_Read _ _, uiErrors_replicate_Read _ _⟩
        | cons d rest2 =>
          simp [LoadDataSource, byte_dash_ne_at, rpcCalls, uiErrors]
      · simp [LoadDataSource, hAt, hDash, rpcCalls, uiErrors]

/-- The trace of `dataFromArgs` holds file and stream reads only. -/
theorem dataFromArgs_trace_reads (w : World) (t : Option Reader) (args : List GoString) :
    rpcCalls (dataFromArgs w t args).trace = [] ∧
      uiErrors (dataFromArgs w t args).trace = [] := by
  match args with
  | [] => exact ⟨rfl, rfl⟩
  | [a] => exact LoadDataSource_trace_reads w a t
  | _ :: _ :: _ => exact ⟨rfl, rfl⟩

/-- The calls of `flags.Usage` send nothing to `Ui.Error` and make no RPC. -/
theorem usage_trace {Reply : Type} (c : LicensePutCommand Reply) (b : Bool) :
    rpcCalls (if b then [Effect.Ui (UiCall.Output (Help c))] else []) = [] ∧
      uiErrors (if b then [Effect.Ui (UiCall.Output (Help c))] else []) = [] := by
  cases b <;> exact ⟨rfl, rfl⟩

theorem rpcCalls_map_Ui (l : List UiCall) : rpcCalls (l.map Effect.Ui) = [] := by
  induction l with
  | nil => rfl
  | cons x t ih => simpa [rpcCalls] using ih

/-- C5: on every failure `Run` returns 1 and sends exactly one message to
`Ui.Error`: `Error parsing flags: ...` when `flags.Parse` fails,
`Error parsing arguments: ...` when `dataFromArgs` fails,
`Error initializing client: ...` when `Meta.Client()` fails and
`Error putting license: ...` when the `LicensePut` RPC fails. When flag parsing or
`dataFromArgs` fails (or the client cannot be initialised) the RPC is not invoked. -/
theorem Run_failure {Reply : Type} (c : LicensePutCommand Reply) (w : World)
    (args : List GoString) :
    (∀ e, (c.Meta.Parse args).res = Except.error e →
      (Run c w args).code = 1 ∧
      uiErrors (Run c w args).trace = [lit "Error parsing flags: " ++ e.msg] ∧
      rpcCalls (Run c w args).trace = []) ∧
    (∀ rest e, (c.Meta.Parse args).res = Except.ok rest →
      (dataFromArgs w c.testStdin rest).err = some e →
      (Run c w args).code = 1 ∧
      uiErrors (Run c w args).trace = [lit "Error parsing arguments" ++ lit ": " ++ e.msg] ∧
      lit "Error parsing arguments" <+: (lit "Error parsing arguments" ++ lit ": " ++ e.msg) ∧
      rpcCalls (Run c w args).trace = []) ∧
    (∀ rest e, (c.Meta.Parse args).res = Except.ok rest →
      (dataFromArgs w c.testStdin rest).err = none →
      c.Meta.Client = Except.error e →
      (Run c w args).code = 1 ∧
      uiErrors (Run c w args).trace = [lit "Error initializing client: " ++ e.msg] ∧
      rpcCalls (Run c w args).trace = []) ∧
    (∀ rest client e, (c.Meta.Parse args).res = Except.ok rest →
      (dataFromArgs w c.testStdin rest).err = none →
      c.Meta.Client = Except.ok client →
      client (dataFromArgs w c.testStdin rest).val = Except.error e →
      (Run c w args).code = 1 ∧
      uiErrors (Run c w args).trace = [lit "Error putting license: " ++ e.msg]) := by
  have hu := usage_trace c (c.Meta.Parse args).usage
  refine ⟨?_, ?_, ?_, ?_⟩
  · intro e hp
    simp only [Run, hp, rpcCalls_append, uiErrors_append, hu.1, hu.2]
    simp [uiErrors, rpcCalls]
  · intro rest e hp hd
    have ht := dataFromArgs_trace_reads w c.testStdin rest
    simp only [Run, hp, hd, rpcCalls_append, uiErrors_append, hu.1, hu.2, ht.1, ht.2]
    simp [uiErrors, rpcCalls, errorsWrap]
  · intro rest e hp hd hc
    have ht := dataFromArgs_trace_reads w c.testStdin rest
    simp only [Run, hp, hd, hc, rpcCalls_append, uiErrors_append, hu.1, hu.2, ht.1, ht.2]
    simp [uiErrors, rpcCalls]
  · intro rest client e hp hd hc hr
    have ht := dataFromArgs_trace_reads w c.testStdin rest
    simp only [Run, hp, hd, hc, hr, rpcCalls_append, uiErrors_append, hu.1, hu.2, ht.1, ht.2]
    simp [uiErrors, rpcCalls]

theorem Run_failure_witness :
    ((sampleCommand.Meta.Parse [lit "-bogus"]).res
        = Except.error ⟨lit "flag provided but not defined: -bogus"⟩ ∧
      (Run sampleCommand sampleWorld [lit "-bogus"]).code = 1 ∧
      rpcCalls (Run sampleCommand sampleWorld [lit "-bogus"]).trace = []) ∧
    ((dataFromArgs sampleWorld sampleCommand.testStdin []).err
        = some ⟨lit "Missing LICENSE argument"⟩ ∧
      (Run sampleCommand sampleWorld []).code = 1 ∧
      uiErrors (Run sampleCommand sampleWorld []).trace
        = [lit "Error parsing arguments: Missing LICENSE argument"]) ∧
    (offlineCommand.Meta.Client = Except.error ⟨lit "invalid address"⟩ ∧
      (Run offlineCommand sampleWorld [lit "-"]).code = 1) ∧
    (Run sampleCommand sampleWorld [lit "other"]).code = 1 :=
  ⟨⟨rfl,
    ((Run_failure sampleCommand sampleWorld [lit "-bogus"]).1 _ rfl).1,
    ((Run_failure sampleCommand sampleWorld [lit "-bogus"]).1 _ rfl).2.2⟩,
   ⟨rfl,
    ((Run_failure sampleCommand sampleWorld []).2.1 [] _ rfl rfl).1,
    (((Run_failure sampleCommand sampleWorld []).2.1 [] _ rfl rfl).2.1).trans (by decide)⟩,
   ⟨rfl,
    ((Run_failure offlineCommand sampleWorld [lit "-"]).2.2.1 [lit "-"]
      ⟨lit "invalid address"⟩ rfl rfl rfl).1⟩,
   ((Run_failure sampleCommand sampleWorld [lit "other"]).2.2.2 [lit "other"]
      (fun payload =>
        if payload = lit "blob" then Except.ok (lit "installed")
        else Except.error ⟨lit "rejected"⟩)
      ⟨lit "rejected"⟩ rfl rfl rfl rfl).1⟩

/-- C6: when flag parsing, `dataFromArgs` and client initialisation succeed, `Run`
calls the `LicensePut` RPC exactly once, and its payload is the string returned by
`dataFromArgs`, which is the string `LoadDataSource` returns for the single
positional argument; when the RPC succeeds, the exit code of `Run` is the value
`OutputLicenseReply` returns for the reply. -/
theorem Run_forwards_data {Reply : Type} (c : LicensePutCommand Reply) (w : World)
    (args rest : List GoString) (client : GoString → Except GoError Reply)
    (hp : (c.Meta.Parse args).res = Except.ok rest)
    (hd : (dataFromArgs w c.testStdin rest).err = none)
    (hc : c.Meta.Client = Except.ok client) :
    rpcCalls (Run c w args).trace = [(dataFromArgs w c.testStdin rest).val] ∧
    (∃ a, rest = [a] ∧
      (dataFromArgs w c.testStdin rest).val = (LoadDataSource w a c.testStdin).val) ∧
    (∀ resp, client (dataFromArgs w c.testStdin rest).val = Except.ok resp →
      (Run c w args).code = (c.Meta.OutputLicenseReply resp).2) := by
  have hu := usage_trace c (c.Meta.Parse args).usage
  have ht := dataFromArgs_trace_reads w c.testStdin rest
  refine ⟨?_, ?_, ?_⟩
  · cases hr : client (dataFromArgs w c.testStdin rest).val with
    | error e =>
      simp only [Run, hp, hd, hc, hr, rpcCalls_append, hu.1, ht.1]
      rfl
    | ok resp =>
      simp only [Run, hp, hd, hc, hr, rpcCalls_append, hu.1, ht.1, rpcCalls_map_Ui]
      rfl
  · match rest, hd with
    | [], hd => simp [dataFromArgs] at hd
    | [a], _ => exact ⟨a, rfl, rfl⟩
    | _ :: _ :: _, hd => simp [dataFromArgs] at hd
  · intro resp hr
    simp only [Run, hp, hd, hc, hr]

theorem Run_forwards_data_witness :
    rpcCalls (Run sampleCommand sampleWorld [lit "@nomad.license"]).trace = [lit "blob"] ∧
    rpcCalls (Run sampleCommand sampleWorld [lit "-"]).trace = [lit "blob"] ∧
    (Run sampleCommand sampleWorld [lit "-"]).code = 0 :=
  ⟨((Run_forwards_data sampleCommand sampleWorld [lit "@nomad.license"]
      [lit "@nomad.license"] _ rfl rfl rfl).1).trans (by decide),
   ((Run_forwards_data sampleCommand sampleWorld [lit "-"] [lit "-"] _ rfl rfl rfl).1).trans
      (by decide),
   ((Run_forwards_data sampleCommand sampleWorld [lit "-"] [lit "-"] _ rfl rfl rfl).2.2
      (lit "installed") rfl).trans (by decide)⟩

end command

namespace volumewatcher

/-! ## Disabling the supervisor -/

/-- C7: disabling is synchronous. For every sequence of calls on a new supervisor
(enabling, disabling, registering volumes, discovery passes, `Reap`), the watcher
set is empty in the state in which `SetEnabled(false, state)` returns; and the
calls of `TestVolumeWatch_EnableDisable` reach a state whose `Reap` succeeds and
which holds exactly one watcher, under the key `VolumeID+Namespace`, before the
supervisor is disabled. -/
theorem SetEnabled_false_no_watchers :
    (∀ ops : List Op, (SetEnabled (run ops) false).watcher.watchers.length = 0) ∧
    (Reap (run enableDisableOps.dropLast) testVolume.Namespace testVolume.ID none).2 = none ∧
    (run enableDisableOps).watcher.watchers.map Prod.fst = [testVolume.ID ++ testVolume.Namespace] ∧
    (SetEnabled (run enableDisableOps) false).watcher.watchers.length = 0 := by
  refine ⟨fun ops => rfl, by decide, by decide, rfl⟩

end volumewatcher
